import Mathlib

/-!
Shallow embedding of the EMA-tracker system (crossover detection, alert
cooldown policy, technical indicators, training-data backfill, model cache
and ensemble prediction), with theorems checking the natural-language
specification against the code.

JavaScript numbers are modelled as rationals (ℚ), timestamps as integers
(ℤ, milliseconds since the epoch), and JavaScript's null / undefined / NaN
values, where a function's behaviour depends on them, by the JSVal type.
-/

namespace EmaTracker

/-- The side of the indicator a price is on ('above' / 'below' strings in
the source). -/
inductive Side
  | above
  | below
deriving DecidableEq, Repr

/-- Per-symbol alert state: the `coinStates` entry (absent before the first
observation) and the `lastAlerts` entry (absent before the first alert;
`lastAlerts.get(symbol) || 0` defaults it to 0). From node.js lines 61-62. -/
structure AlertState where
  side : Option Side
  lastAlertTime : Option ℤ
deriving DecidableEq, Repr

/-- Result of `shouldAlert`: the returned boolean plus the per-symbol state
after the call (the source mutates the `coinStates` / `lastAlerts` maps). -/
structure ShouldAlertResult where
  fire : Bool
  state : AlertState
deriving DecidableEq, Repr

/-- node.js `shouldAlert(symbol, currentState)` (lines 429-444), with the
ambient `Date.now()` and `ALERT_COOLDOWN` passed explicitly and the
per-symbol slices of the global maps passed as `st`. -/
def shouldAlert (now cooldown : ℤ) (st : AlertState) (currentState : Side) :
    ShouldAlertResult :=
  let lastAlertTime := st.lastAlertTime.getD 0
  if st.side ≠ some currentState then
    let st1 : AlertState := { st with side := some currentState }
    if now - lastAlertTime ≥ cooldown then
      { fire := true, state := { st1 with lastAlertTime := some now } }
    else
      { fire := false, state := st1 }
  else
    { fire := false, state := st }

/-- `lastPrice > lastEMA ? 'above' : 'below'`: the side computation used at
node.js line 955 (`checkForCrossover`) and lines 831-832
(`processRealtimeCandle`). -/
def sideOf (price ema : ℚ) : Side :=
  if price > ema then Side.above else Side.below

/-- Direction tag of an emitted crossover alert ('up' / 'down'). -/
inductive CrossDir
  | up
  | down
deriving DecidableEq, Repr

/-- The payload handed to the Telegram alert sender. -/
structure Alert where
  dir : CrossDir
  price : ℚ
  ema : ℚ
  difference : ℚ
deriving DecidableEq, Repr

/-- Result of `checkForCrossover`: emitted alerts and the updated
per-symbol alert state. -/
structure CrossoverResult where
  alerts : List Alert
  state : AlertState
deriving DecidableEq, Repr

/-- node.js `checkForCrossover(symbol, prevPrice, lastPrice, prevEMA,
lastEMA)` (lines 952-1015), restricted to its decision logic: the console
logging and the ML-prediction decoration of the alert payload do not affect
which alerts fire or how the state changes. -/
def checkForCrossover (now cooldown : ℤ) (prevPrice lastPrice prevEMA lastEMA : ℚ)
    (st : AlertState) : CrossoverResult :=
  let currentState := sideOf lastPrice lastEMA
  let difference := (lastPrice - lastEMA) / lastEMA * 100
  if prevPrice < prevEMA ∧ lastPrice > lastEMA then
    let r := shouldAlert now cooldown st currentState
    { alerts := if r.fire then [⟨CrossDir.up, lastPrice, lastEMA, difference⟩] else [],
      state := r.state }
  else if prevPrice > prevEMA ∧ lastPrice < lastEMA then
    let r := shouldAlert now cooldown st currentState
    { alerts := if r.fire then [⟨CrossDir.down, lastPrice, lastEMA, difference⟩] else [],
      state := r.state }
  else
    { alerts := [], state := { st with side := some currentState } }

/-- A cached closed candle (node.js `newKline`, lines 587-594). The source
field `open` is a Lean keyword and is rendered `openPrice`. -/
structure Candle where
  time : ℤ
  openPrice : ℚ
  high : ℚ
  low : ℚ
  close : ℚ
  volume : ℚ
deriving DecidableEq, Repr

/-- A stored training feature point, restricted to the fields the backfill
path touches (node.js `dataPoint`, lines 626-649). -/
structure DataPoint where
  timestamp : ℤ
  close : ℚ
  futurePriceChange : Option ℚ
  label : Option ℤ
deriving DecidableEq, Repr

/-- The per-symbol slices of the global mutable maps a symbol's stream
session touches: `klineCache`, `emaCache`, `coinStates`+`lastAlerts`
(combined in `AlertState`) and `trainingData`. -/
structure SessionState where
  klines : List Candle
  emaValues : List ℚ
  alertState : AlertState
  trainingData : List DataPoint
deriving DecidableEq, Repr

/-- The observability-only record logged when an unconfirmed tick shows a
potential crossover (node.js lines 835-859). -/
structure RTObservation where
  prevState : Side
  currentState : Side
  difference : ℚ
deriving DecidableEq, Repr

/-- Result of processing one unconfirmed intra-candle tick: the session
state afterwards, any alerts emitted, any training points appended, and the
potential-crossover observation (a log line in the source). -/
structure RTResult where
  state : SessionState
  alerts : List Alert
  trainingWrites : List DataPoint
  observation : Option RTObservation
deriving DecidableEq, Repr

/-- node.js `processRealtimeCandle(symbol, kline, logUnconfirmed)`
(lines 809-868); `currentPrice` is `parseFloat(kline.c)`. The function only
reads the caches, computes the provisional sides, and logs a potential
crossover; it calls neither `shouldAlert` nor any alert sender nor any
training-data write. -/
def processRealtimeCandle (st : SessionState) (currentPrice : ℚ) : RTResult :=
  if st.klines.isEmpty then
    { state := st, alerts := [], trainingWrites := [], observation := none }
  else if st.emaValues.length < 2 then
    { state := st, alerts := [], trainingWrites := [], observation := none }
  else
    let lastClosedPrice := (st.klines.getLastD ⟨0, 0, 0, 0, 0, 0⟩).close
    let lastEMA := st.emaValues.getLastD 0
    let prevState := sideOf lastClosedPrice lastEMA
    let currentState := sideOf currentPrice lastEMA
    if prevState ≠ currentState then
      let difference := (currentPrice - lastEMA) / lastEMA * 100
      { state := st, alerts := [], trainingWrites := [],
        observation := some ⟨prevState, currentState, difference⟩ }
    else
      { state := st, alerts := [], trainingWrites := [], observation := none }

/-- A JavaScript value as far as the numeric pipelines distinguish them:
a finite number, null, undefined, or NaN. -/
inductive JSVal
  | num (q : ℚ)
  | jnull
  | jundef
  | nan
deriving DecidableEq, Repr

/-- Whether `price === null || price === undefined || isNaN(Number(price))`
is false, i.e. the element passes the validator's per-element check. -/
def validNumber (v : JSVal) : Bool :=
  match v with
  | JSVal.num _ => true
  | _ => false

/-- `Number(v)` coercion, used once an element has been validated (where it
is the identity) and in JavaScript arithmetic on null (`Number(null) = 0`). -/
def jsNumVal (v : JSVal) : ℚ :=
  match v with
  | JSVal.num q => q
  | _ => 0

/-- ml_alternative.js `normalizeValue(value, min, max)` (lines 239-253):
missing value (null / undefined / NaN) and degenerate range both yield 0.5;
otherwise the value is clamped into [min, max] and mapped linearly. -/
def normalizeValue (value : JSVal) (mn mx : ℚ) : ℚ :=
  match value with
  | JSVal.num v =>
      if mn ≥ mx then 1 / 2
      else (max mn (min mx v) - mn) / (mx - mn)
  | _ => 1 / 2

/-- The `prices` argument of the indicator functions: either an array of
JavaScript values or some non-array value (which `validatePriceData`
rejects with "Prices must be an array"). -/
inductive JSInput
  | arr (elems : List JSVal)
  | notArray
deriving DecidableEq, Repr

/-- technical_indicators `validatePriceData(prices, minLength,
functionName)` (part_002 lines 7-26). Check order matches the source:
array-ness (throw), then length (return false → caller uses its fallback),
then per-element validity (throw). -/
def validatePriceData (prices : JSInput) (minLength : ℕ) : Except String Bool :=
  match prices with
  | JSInput.notArray => Except.error "Prices must be an array"
  | JSInput.arr ps =>
      if ps.length < minLength then Except.ok false
      else if ps.any (fun p => !validNumber p) then
        Except.error "All prices must be valid numbers"
      else Except.ok true

/-- technical_indicators `padArray(array, targetLength, padValue, padStart)`
(part_002 lines 29-34). -/
def padArray {α : Type} (array : List α) (targetLength : ℕ) (padValue : α)
    (padStart : Bool) : List α :=
  if array.length ≥ targetLength then array
  else
    let padding := List.replicate (targetLength - array.length) padValue
    if padStart then padding ++ array else array ++ padding

/-- The EMA recurrence `ema = (price - ema) * k + ema` unrolled over the
remaining prices, emitting each intermediate value (the `emaValues` array,
part_002 lines 277-283), starting from the SMA seed. -/
def emaScan (k : ℚ) (ema : ℚ) : List ℚ → List ℚ
  | [] => [ema]
  | p :: tl => ema :: emaScan k ((p - ema) * k + ema) tl

/-- The numeric body of technical_indicators `calculateEMA(prices, period)`
(part_002 lines 254-290) on an already numeric array, including its own
short-input fallback (`padArray([], prices.length, prices[0] or 0)`): the
source re-runs this validation when `calculateMACD` calls `calculateEMA`
internally. -/
def calculateEMAnums (prices : List ℚ) (period : ℕ) : List ℚ :=
  if prices.length < period then
    padArray [] prices.length (prices.headD 0) true
  else
    let k : ℚ := 2 / (period + 1)
    let seed := (prices.take period).sum / period
    padArray (emaScan k seed (prices.drop period)) prices.length (prices.headD 0) true

/-- technical_indicators `calculateEMA(prices, period)` at the JavaScript
boundary: period check, then `validatePriceData(prices, period)`; on
`false` the fallback pads with the raw first element (which may be a
non-number for malformed short inputs), otherwise the numeric body runs. -/
def calculateEMA (input : JSInput) (period : ℕ) : Except String (List JSVal) :=
  if period = 0 then Except.error "calculateEMA: Period must be a positive integer"
  else
    match input, validatePriceData input period with
    | _, Except.error e => Except.error e
    | JSInput.arr ps, Except.ok false =>
        Except.ok (padArray [] ps.length (ps.headD (JSVal.num 0)) true)
    | JSInput.arr ps, Except.ok true =>
        Except.ok ((calculateEMAnums (ps.map jsNumVal) period).map JSVal.num)
    | JSInput.notArray, Except.ok _ =>
        Except.error "calculateEMA: Prices must be an array"

/-- Accumulate the initial `gains` / `losses` totals over the first
`period` changes (part_002 lines 62-72). -/
def rsiInit (changes : List ℚ) : ℚ × ℚ :=
  changes.foldl
    (fun gl c => if c ≥ 0 then (gl.1 + c, gl.2) else (gl.1, gl.2 - c)) (0, 0)

/-- One RSI value from smoothed gains/losses, with the division-by-zero
guard (`losses === 0` yields 100; part_002 lines 74-80 and 93-99). -/
def rsiFromGL (gains losses : ℚ) : ℚ :=
  if losses = 0 then 100 else 100 - 100 / (1 + gains / losses)

/-- The Wilder-smoothing loop over the remaining changes (part_002 lines
83-100), emitting one RSI value per change. -/
def rsiLoop (period : ℕ) (gains losses : ℚ) : List ℚ → List ℚ
  | [] => []
  | c :: tl =>
      let g2 := if c ≥ 0 then (gains * ((period : ℚ) - 1) + c) / period
                else (gains * ((period : ℚ) - 1)) / period
      let l2 := if c ≥ 0 then (losses * ((period : ℚ) - 1)) / period
                else (losses * ((period : ℚ) - 1) - c) / period
      rsiFromGL g2 l2 :: rsiLoop period g2 l2 tl

/-- The numeric body of technical_indicators `calculateRSI` (part_002 lines
54-103) on an already numeric array of length ≥ period + 1. -/
def calculateRSInums (prices : List ℚ) (period : ℕ) : List ℚ :=
  let changes := List.zipWith (fun a b => a - b) prices.tail prices
  let gl := rsiInit (changes.take period)
  padArray (rsiFromGL gl.1 gl.2 :: rsiLoop period gl.1 gl.2 (changes.drop period))
    prices.length 50 true

/-- technical_indicators `calculateRSI(prices, period)` (part_002 lines
42-107). The short-input fallback pads with the neutral value 50, so the
result is numeric on every non-error path. -/
def calculateRSI (input : JSInput) (period : ℕ) : Except String (List ℚ) :=
  if period = 0 then Except.error "calculateRSI: Period must be a positive integer"
  else
    match input, validatePriceData input (period + 1) with
    | _, Except.error e => Except.error e
    | JSInput.arr ps, Except.ok false =>
        Except.ok (padArray [] ps.length 50 true)
    | JSInput.arr ps, Except.ok true =>
        Except.ok (calculateRSInums (ps.map jsNumVal) period)
    | JSInput.notArray, Except.ok _ =>
        Except.error "calculateRSI: Prices must be an array"

/-- The `{macd, signal, histogram}` object returned by `calculateMACD`. -/
structure MACDResult where
  macd : List ℚ
  signal : List ℚ
  histogram : List ℚ
deriving DecidableEq, Repr

/-- The numeric body of technical_indicators `calculateMACD` (part_002
lines 210-242): two EMAs, the zero-filled MACD line, its EMA as the signal
line, and the zero-filled histogram. -/
def calculateMACDnums (prices : List ℚ) (fastPeriod slowPeriod signalPeriod : ℕ) :
    MACDResult :=
  let fastEMA := calculateEMAnums prices fastPeriod
  let slowEMA := calculateEMAnums prices slowPeriod
  let macdLine := (List.range prices.length).map (fun i =>
    if i < slowPeriod - 1 then 0 else fastEMA.getD i 0 - slowEMA.getD i 0)
  let signalLine := calculateEMAnums macdLine signalPeriod
  let histogram := (List.range macdLine.length).map (fun i =>
    if i < slowPeriod + signalPeriod - 2 then 0
    else macdLine.getD i 0 - signalLine.getD i 0)
  { macd := macdLine, signal := signalLine, histogram := histogram }

/-- technical_indicators `calculateMACD(prices, fastPeriod, slowPeriod,
signalPeriod)` (part_002 lines 186-246): three period checks, validation at
minimum length `max(fastPeriod, slowPeriod)`, all-zero fallback, then the
numeric body. -/
def calculateMACD (input : JSInput) (fastPeriod slowPeriod signalPeriod : ℕ) :
    Except String MACDResult :=
  if fastPeriod = 0 then
    Except.error "calculateMACD: Fast period must be a positive integer"
  else if slowPeriod = 0 then
    Except.error "calculateMACD: Slow period must be a positive integer"
  else if signalPeriod = 0 then
    Except.error "calculateMACD: Signal period must be a positive integer"
  else
    match input, validatePriceData input (max fastPeriod slowPeriod) with
    | _, Except.error e => Except.error e
    | JSInput.arr ps, Except.ok false =>
        Except.ok { macd := List.replicate ps.length 0,
                    signal := List.replicate ps.length 0,
                    histogram := List.replicate ps.length 0 }
    | JSInput.arr ps, Except.ok true =>
        Except.ok (calculateMACDnums (ps.map jsNumVal) fastPeriod slowPeriod signalPeriod)
    | JSInput.notArray, Except.ok _ =>
        Except.error "calculateMACD: Prices must be an array"

/-- JavaScript multiplication `v * q` of a possibly non-numeric value by a
number literal: `null * q = 0`, `undefined * q = NaN * q = NaN`. Used by
the Bollinger fallback (`defaultValue * 1.1`, `defaultValue * 0.9`). -/
def jsMul (v : JSVal) (q : ℚ) : JSVal :=
  match v with
  | JSVal.num x => JSVal.num (x * q)
  | JSVal.jnull => JSVal.num 0
  | _ => JSVal.nan

/-- The `{upper, middle, lower}` object returned by
`calculateBollingerBands`. Entries are JSVal since the short-input fallback
replicates the raw first element. -/
structure BBResult where
  upper : List JSVal
  middle : List JSVal
  lower : List JSVal
deriving DecidableEq, Repr

/-- One `(middle, upper, lower)` triple of the Bollinger main loop at index
`i` (part_002 lines 143-162): trailing-window SMA, population standard
deviation via `sqrtFn` (modelling `Math.sqrt`, which exact rational
arithmetic cannot express), and the two bands. -/
def bollingerBandAt (sqrtFn : ℚ → ℚ) (prices : List ℚ) (period : ℕ)
    (multiplier : ℚ) (i : ℕ) : ℚ × ℚ × ℚ :=
  let window := (prices.drop (i + 1 - period)).take period
  let sma := window.sum / period
  let sumSquaredDiff := (window.map (fun p => (p - sma) ^ 2)).sum
  let stdDev := sqrtFn (sumSquaredDiff / period)
  (sma, sma + multiplier * stdDev, sma - multiplier * stdDev)

/-- The Bollinger main loop: one triple for each `i` from `period - 1` to
`prices.length - 1`. -/
def bollingerBands (sqrtFn : ℚ → ℚ) (prices : List ℚ) (period : ℕ)
    (multiplier : ℚ) : List (ℚ × ℚ × ℚ) :=
  ((List.range prices.length).drop (period - 1)).map
    (bollingerBandAt sqrtFn prices period multiplier)

/-- technical_indicators `calculateBollingerBands(prices, period,
multiplier)` (part_002 lines 116-176). `Math.sqrt` is passed as `sqrtFn`;
all theorems assume only that it is nonnegative on nonnegative arguments,
which holds for the JavaScript function. -/
def calculateBollingerBands (sqrtFn : ℚ → ℚ) (input : JSInput) (period : ℕ)
    (multiplier : ℚ) : Except String BBResult :=
  if period = 0 then
    Except.error "calculateBollingerBands: Period must be a positive integer"
  else if multiplier ≤ 0 then
    Except.error "calculateBollingerBands: Multiplier must be a positive number"
  else
    match input, validatePriceData input period with
    | _, Except.error e => Except.error e
    | JSInput.arr ps, Except.ok false =>
        let d := ps.headD (JSVal.num 0)
        Except.ok { upper := List.replicate ps.length (jsMul d (11 / 10)),
                    middle := List.replicate ps.length d,
                    lower := List.replicate ps.length (jsMul d (9 / 10)) }
    | JSInput.arr ps, Except.ok true =>
        let qs := ps.map jsNumVal
        let bands := bollingerBands sqrtFn qs period multiplier
        let d := qs.headD 0
        Except.ok
          { upper := (padArray (bands.map (fun b => b.2.1)) ps.length (d * (11 / 10)) true).map JSVal.num,
            middle := (padArray (bands.map (fun b => b.1)) ps.length d true).map JSVal.num,
            lower := (padArray (bands.map (fun b => b.2.2)) ps.length (d * (9 / 10)) true).map JSVal.num }
    | JSInput.notArray, Except.ok _ =>
        Except.error "calculateBollingerBands: Prices must be an array"

/-- A kline element of the `calculateATR` input: an object carrying high,
low and close, or a non-object value (which the per-element validation
rejects). -/
inductive KlineVal
  | obj (high low close : JSVal)
  | notObj
deriving DecidableEq, Repr

/-- The klines argument of `calculateATR`. -/
inductive KlinesInput
  | arr (elems : List KlineVal)
  | notArray
deriving DecidableEq, Repr

/-- Whether `isNaN(Number(v))` is false. Unlike `validatePriceData`, which
rejects null explicitly, the ATR field check (part_002 line 321) is only
`isNaN(Number(field))`, and `Number(null) = 0`, so a null field passes and
is computed with as 0; only undefined and NaN fields fail the check. -/
def coercesToNumber (v : JSVal) : Bool :=
  match v with
  | JSVal.num _ => true
  | JSVal.jnull => true
  | _ => false

/-- The per-element validation of `calculateATR` (part_002 lines 315-324):
the element is an object and `Number` of each of high/low/close is not NaN
(`coercesToNumber`). -/
def validKline (k : KlineVal) : Bool :=
  match k with
  | KlineVal.obj h l c => coercesToNumber h && coercesToNumber l && coercesToNumber c
  | KlineVal.notObj => false

/-- The numeric high/low/close of a validated kline. -/
def klineNums (k : KlineVal) : ℚ × ℚ × ℚ :=
  match k with
  | KlineVal.obj h l c => (jsNumVal h, jsNumVal l, jsNumVal c)
  | KlineVal.notObj => (0, 0, 0)

/-- True range of a candle against the previous close (part_002 lines
330-345). -/
def trueRange (prev cur : ℚ × ℚ × ℚ) : ℚ :=
  max (cur.1 - cur.2.1) (max |cur.1 - prev.2.2| |cur.2.1 - prev.2.2|)

/-- technical_indicators `calculateATR(klines, period)` (part_002 lines
298-358). Like the price validator, the length check (`return 0`) precedes
the per-element validation; the source distinguishes a non-object from a
non-numeric field only in the thrown message, which is folded into one
error here. -/
def calculateATR (input : KlinesInput) (period : ℕ) : Except String ℚ :=
  if period = 0 then Except.error "calculateATR: Period must be a positive integer"
  else
    match input with
    | KlinesInput.notArray => Except.error "calculateATR: Klines must be an array"
    | KlinesInput.arr ks =>
        if ks.length < period + 1 then Except.ok 0
        else if ks.any (fun k => !validKline k) then
          Except.error "calculateATR: invalid kline"
        else
          let triples := ks.map klineNums
          let trueRanges := List.zipWith trueRange triples triples.tail
          if trueRanges.length < period then
            Except.ok (trueRanges.sum / trueRanges.length)
          else
            Except.ok ((trueRanges.drop (trueRanges.length - period)).sum / period)

/-- The `modelCache` JavaScript Map (ml_alternative.js line 21), modelled
as an insertion-ordered association list: `Map.set` with a fresh key
appends, and `modelCache.keys().next().value` is the first (oldest
inserted) key. Loaded networks are opaque and identified by a number. -/
def ModelCache : Type := List (String × ℕ)

/-- `modelCache.has(symbol)`. -/
def cacheHas (cache : List (String × ℕ)) (symbol : String) : Bool :=
  cache.any (fun e => e.1 = symbol)

/-- The cache interaction of ml_alternative.js `predictPriceChange`
(lines 977-1001): on a hit the cached model is reused and the cache is
unchanged; on a miss the freshly loaded model is inserted, first deleting
the oldest-inserted entry if `modelCache.size > 50`. -/
def modelCacheInsert (cache : List (String × ℕ)) (symbol : String) (net : ℕ) :
    List (String × ℕ) :=
  if cacheHas cache symbol then cache
  else
    let cache1 := if cache.length > 50 then cache.tail else cache
    cache1 ++ [(symbol, net)]

/-- node.js `updateStoredDataPoint` inner loop body (lines 914-928) on one
parsed JSON file: find the first point with the given timestamp, overwrite
its `future_price_change` and `label`, and report whether a match was
found (`findIndex` + in-place assignment rendered as a first-match
update). -/
def updateFile (file : List DataPoint) (timestamp : ℤ) (priceChange : ℚ) :
    Option (List DataPoint) :=
  match file with
  | [] => none
  | d :: tl =>
      if d.timestamp = timestamp then
        some ({ d with futurePriceChange := some priceChange,
                       label := some (if priceChange ≥ 0 then 1 else 0) } :: tl)
      else
        match updateFile tl timestamp priceChange with
        | some tl2 => some (d :: tl2)
        | none => none

/-- node.js `updateStoredDataPoint(symbol, timestamp, priceChange)`
(lines 904-936): iterate the symbol's JSON files in directory order,
rewrite the first file containing the timestamp and return true; return
false when no file matches. -/
def updateStoredDataPoint (files : List (List DataPoint)) (timestamp : ℤ)
    (priceChange : ℚ) : Bool × List (List DataPoint) :=
  match files with
  | [] => (false, [])
  | f :: rest =>
      match updateFile f timestamp priceChange with
      | some f2 => (true, f2 :: rest)
      | none =>
          let r := updateStoredDataPoint rest timestamp priceChange
          (r.1, f :: r.2)

/-- One entry of the model directory listing seen by `ensemblePrediction`
(ml_alternative.js lines 1284-1290): the directory name, its creation time,
the listing-filter facts (`isDirectory` and the name starting with 'v'
combined into `isVersionDir`, `model.json` present, `features.json`
present) and the prediction this version's network yields for the feature
vector under consideration (the network itself is opaque). -/
structure MVersion where
  name : String
  created : ℤ
  isVersionDir : Bool
  hasModelJson : Bool
  hasFeaturesJson : Bool
  pred : ℚ
deriving DecidableEq, Repr

/-- A version that passes every existence check of the ensemble loop. -/
def validVersion (v : MVersion) : Bool :=
  v.isVersionDir && v.hasModelJson && v.hasFeaturesJson

/-- The recency weighting of ml_alternative.js lines 1341-1350: prediction
`i` (0-based) gets weight `predictions.length - i`, and the result is
`weightedSum / weightSum`. -/
def weightedEnsemble (predictions : List ℚ) : ℚ :=
  let n := predictions.length
  let weightedSum :=
    (List.zipWith (fun p w => p * w) predictions
      ((List.range n).map (fun i => ((n - i : ℕ) : ℚ)))).sum
  let weightSum := ((List.range n).map (fun i => (((n - i : ℕ) : ℚ)))).sum
  weightedSum / weightSum

/-- ml_alternative.js `ensemblePrediction(symbol, features)` (lines
1272-1374), restricted to version selection and combination: the directory
listing is filtered (directory, 'v' prefix, `model.json` present), the
FIRST five survivors IN LISTING ORDER are taken (`slice(0, 5)`; the source
never sorts this listing), each version with both files still present
contributes its prediction, and the predictions are combined by
`weightedEnsemble`. -/
def ensemblePrediction (listing : List MVersion) : Option ℚ :=
  let versions :=
    (listing.filter (fun v => v.isVersionDir && v.hasModelJson)).take 5
  if versions.isEmpty then none
  else
    let predictions := versions.filterMap (fun v =>
      if v.hasModelJson && v.hasFeaturesJson then some v.pred else none)
    if predictions.isEmpty then none
    else some (weightedEnsemble predictions)

/-- Insertion into a list kept descending by creation time (spec side). -/
def insertDescByCreated (v : MVersion) : List MVersion → List MVersion
  | [] => [v]
  | w :: tl =>
      if v.created ≥ w.created then v :: w :: tl else w :: insertDescByCreated v tl

/-- Insertion sort, newest first (spec side). -/
def sortDescByCreated (l : List MVersion) : List MVersion :=
  l.foldr insertDescByCreated []

/-- Modelled from the spec: "load up to the 5 most recent versions, predict
with each, combine via a recency-weighted average (most recent version
weight = N, next = N−1, …)". The eligible versions are sorted newest first
by creation time, the five most recent are kept, and the first (most
recent) receives the largest weight. Stated for comparison against
`ensemblePrediction`, which is translated from the source. -/
def ensemblePredictionSpec (listing : List MVersion) : Option ℚ :=
  let versions := (sortDescByCreated (listing.filter validVersion)).take 5
  if versions.isEmpty then none
  else some (weightedEnsemble (versions.map (fun v => v.pred)))

/-- Insertion into a list kept ascending by creation time. -/
def insertAscByCreated (v : MVersion) : List MVersion → List MVersion
  | [] => [v]
  | w :: tl =>
      if v.created ≤ w.created then v :: w :: tl else w :: insertAscByCreated v tl

/-- Insertion sort, oldest first. -/
def sortAscByCreated (l : List MVersion) : List MVersion :=
  l.foldr insertAscByCreated []

/-- The behaviour the source actually implements, stated in spec style for
the amended claim: the eligible versions are sorted OLDEST first (the order
`readdirSync` yields for the lexicographically sortable `v<timestamp>`
directory names), the first five — the five oldest — are kept, and the
first (oldest) receives the largest weight. -/
def ensemblePredictionSpecOldest (listing : List MVersion) : Option ℚ :=
  let versions := (sortAscByCreated (listing.filter validVersion)).take 5
  if versions.isEmpty then none
  else some (weightedEnsemble (versions.map (fun v => v.pred)))

/-- Whether an Except value is a thrown error. -/
def isErr {α : Type} (r : Except String α) : Bool :=
  match r with
  | Except.error _ => true
  | Except.ok _ => false

/-! ## Theorems -/

/-- `padArray` on an empty array is a replicate. -/
theorem padArray_nil {α : Type} (n : ℕ) (v : α) :
    padArray ([] : List α) n v true = List.replicate n v := by
  cases n with
  | zero => rfl
  | succ m => simp [padArray]

/-- `padArray` prepends the missing count of the pad value. -/
theorem padArray_eq_append {α : Type} (l : List α) (n : ℕ) (v : α) :
    padArray l n v true = List.replicate (n - l.length) v ++ l := by
  unfold padArray
  split
  · next hge => rw [Nat.sub_eq_zero_of_le hge]; simp
  · rfl

/-- Length of a padded array. -/
theorem padArray_length {α : Type} (l : List α) (n : ℕ) (v : α) :
    (padArray l n v true).length = max n l.length := by
  rw [padArray_eq_append]
  simp [List.length_append, List.length_replicate]
  omega

/-- The EMA scan emits one value per remaining price plus the seed. -/
theorem emaScan_length (k e : ℚ) (rest : List ℚ) :
    (emaScan k e rest).length = rest.length + 1 := by
  induction rest generalizing e with
  | nil => rfl
  | cons p tl ih => simp [emaScan, ih]

/-- `calculateEMAnums` preserves the input length (for positive periods). -/
theorem calculateEMAnums_length (l : List ℚ) (period : ℕ) (hp : period ≠ 0) :
    (calculateEMAnums l period).length = l.length := by
  unfold calculateEMAnums
  split
  · next hlt => rw [padArray_nil]; simp
  · next hge =>
      rw [padArray_length, emaScan_length]
      simp only [List.length_drop]
      omega

/-- `getD` through a `JSVal.num` map. -/
theorem getD_map_num (l : List ℚ) (i : ℕ) :
    (l.map JSVal.num).getD i (JSVal.num 0) = JSVal.num (l.getD i 0) := by
  induction l generalizing i with
  | nil => simp [List.getD]
  | cons a tl ih =>
      cases i with
      | zero => simp
      | succ j => simpa using ih j

/-- `getD` on a replicate. -/
theorem getD_replicate {α : Type} (n i : ℕ) (a dflt : α) :
    (List.replicate n a).getD i dflt = if i < n then a else dflt := by
  induction n generalizing i with
  | zero => simp [List.getD]
  | succ m ih =>
      cases i with
      | zero => simp [List.replicate]
      | succ j => simpa [List.replicate] using ih j

/-- `getD` on a mapped range evaluates the function (in range). -/
theorem getD_map_range (f : ℕ → ℚ) (n i : ℕ) (h : i < n) :
    ((List.range n).map f).getD i 0 = f i := by
  rw [List.getD_eq_getElem?_getD, List.getElem?_map, List.getElem?_range h]
  rfl

/-- `getD` past the end returns the default. -/
theorem getD_past_end {α : Type} (l : List α) (i : ℕ) (d : α) (h : l.length ≤ i) :
    l.getD i d = d := by
  rw [List.getD_eq_getElem?_getD, List.getElem?_eq_none h]
  rfl

/-- C1: the claim says a tie (`currPrice == currIndicator`) yields side
'above'. Counterexample: the source computes `currPrice > currIndicator ?
'above' : 'below'`, so a tie yields 'below' — here at price = indicator =
10, the confirmed-close check stores side 'below' and the provisional
real-time check reports current side 'below'. -/
theorem tie_side_cex :
    sideOf 10 10 = Side.below ∧
    (checkForCrossover 0 1 9 10 8 10 ⟨none, none⟩).state.side = some Side.below ∧
    (processRealtimeCandle ⟨[⟨0, 0, 0, 0, 11, 0⟩], [10, 10], ⟨none, none⟩, []⟩ 10).observation =
      some ⟨Side.above, Side.below, 0⟩ := by
  refine ⟨by norm_num [sideOf], by norm_num [checkForCrossover, sideOf, shouldAlert], ?_⟩
  norm_num [processRealtimeCandle, sideOf]
  simp

/-- C1 (amended): when the current price exactly equals the current
indicator value, the computed side is 'below' (never 'above'), in both the
confirmed candle-close check and the provisional real-time check; in the
confirmed check no crossover branch fires and the stored side becomes
'below'. -/
theorem tie_side_below (price ema : ℚ) (h : price = ema) :
    sideOf price ema = Side.below ∧
    (∀ (now cooldown : ℤ) (prevPrice prevEMA : ℚ) (st : AlertState),
      (checkForCrossover now cooldown prevPrice price prevEMA ema st).alerts = [] ∧
      (checkForCrossover now cooldown prevPrice price prevEMA ema st).state.side =
        some Side.below) ∧
    (∀ (st : SessionState), st.emaValues.getLastD 0 = ema →
      ∀ o ∈ (processRealtimeCandle st price).observation, o.currentState = Side.below) := by
  subst h
  have hside : sideOf price price = Side.below := by
    simp [sideOf]
  refine ⟨hside, ?_, ?_⟩
  · intro now cooldown prevPrice prevEMA st
    have h1 : ¬(prevPrice < prevEMA ∧ price > price) := by
      rintro ⟨-, h2⟩; exact lt_irrefl _ h2
    have h2 : ¬(prevPrice > prevEMA ∧ price < price) := by
      rintro ⟨-, h2⟩; exact lt_irrefl _ h2
    simp [checkForCrossover, h1, h2, hside]
  · intro st hlast o ho
    simp only [processRealtimeCandle] at ho
    split at ho
    · simp at ho
    · split at ho
      · simp at ho
      · rw [hlast] at ho
        split at ho
        · simp only [Option.mem_def, Option.some.injEq] at ho
          subst ho
          exact hside
        · simp at ho

/-- C1 witness: the amended tie behaviour evaluated at price = indicator
= 7. -/
theorem tie_side_below_witness :
    sideOf 7 7 = Side.below ∧
    (checkForCrossover 5 60000 6 7 6 7 ⟨some Side.above, some 0⟩).alerts = [] :=
  ⟨(tie_side_below 7 7 rfl).1,
   ((tie_side_below 7 7 rfl).2.1 5 60000 6 6 ⟨some Side.above, some 0⟩).1⟩

/-- C2: with prior state side = below and lastAlertTimestamp = T, an
upward side transition evaluated at T + cooldown − 1 produces no alert,
and the same transition evaluated at T + cooldown produces exactly one
alert and sets the last-alert timestamp to the evaluation time. -/
theorem crossover_cooldown_boundary (T cooldown : ℤ)
    (prevPrice prevEMA lastPrice lastEMA : ℚ)
    (hcd : 0 < cooldown) (hprev : prevPrice < prevEMA) (hlast : lastEMA < lastPrice) :
    (checkForCrossover (T + cooldown - 1) cooldown prevPrice lastPrice prevEMA lastEMA
        ⟨some Side.below, some T⟩).alerts.length = 0 ∧
    (checkForCrossover (T + cooldown) cooldown prevPrice lastPrice prevEMA lastEMA
        ⟨some Side.below, some T⟩).alerts.length = 1 ∧
    (checkForCrossover (T + cooldown) cooldown prevPrice lastPrice prevEMA lastEMA
        ⟨some Side.below, some T⟩).state.lastAlertTime = some (T + cooldown) := by
  have hside : sideOf lastPrice lastEMA = Side.above := by
    simp [sideOf, hlast]
  have e1 : ¬(T + cooldown - 1 - T ≥ cooldown) := by omega
  have e2 : T + cooldown - T ≥ cooldown := by omega
  refine ⟨?_, ?_, ?_⟩
  · simp [checkForCrossover, hprev, hlast, hside, shouldAlert, e1]
  · simp [checkForCrossover, hprev, hlast, hside, shouldAlert, e2]
  · simp [checkForCrossover, hprev, hlast, hside, shouldAlert, e2]

/-- C2 witness: the cooldown boundary evaluated at T = 0, cooldown = 2,
prices 1 → 3 against EMAs 2 → 2. -/
theorem crossover_cooldown_boundary_witness :
    (checkForCrossover (0 + 2 - 1) 2 1 3 2 2 ⟨some Side.below, some 0⟩).alerts.length = 0 ∧
    (checkForCrossover (0 + 2) 2 1 3 2 2 ⟨some Side.below, some 0⟩).alerts.length = 1 ∧
    (checkForCrossover (0 + 2) 2 1 3 2 2 ⟨some Side.below, some 0⟩).state.lastAlertTime =
      some (0 + 2) :=
  crossover_cooldown_boundary 0 2 1 2 3 2 (by norm_num) (by norm_num) (by norm_num)

/-- C9: processing an unconfirmed intra-candle tick leaves the whole
session state untouched (candle buffer, EMA history, alert side, cooldown
timestamp and training buffer), emits no alert and appends no training
feature point. -/
theorem realtime_tick_no_effects (st : SessionState) (currentPrice : ℚ) :
    (processRealtimeCandle st currentPrice).state = st ∧
    (processRealtimeCandle st currentPrice).alerts = [] ∧
    (processRealtimeCandle st currentPrice).trainingWrites = [] := by
  refine ⟨?_, ?_, ?_⟩ <;> (simp only [processRealtimeCandle]; repeat' split) <;> try rfl

/-- C10: feature normalization is total — for every input value (number,
null, undefined or NaN) and every range, the result lies in [0, 1]; it is
0.5 for missing values and degenerate ranges, and the clamped linear
position otherwise. -/
theorem normalizeValue_total (value : JSVal) (mn mx : ℚ) :
    0 ≤ normalizeValue value mn mx ∧ normalizeValue value mn mx ≤ 1 ∧
    (validNumber value = false → normalizeValue value mn mx = 1 / 2) ∧
    (mx ≤ mn → normalizeValue value mn mx = 1 / 2) ∧
    (∀ q, value = JSVal.num q → mn < mx →
      normalizeValue value mn mx = (max mn (min mx q) - mn) / (mx - mn)) := by
  cases value with
  | num q =>
      by_cases hr : mn ≥ mx
      · refine ⟨by norm_num [normalizeValue, hr], by norm_num [normalizeValue, hr],
          by intro h; simp [validNumber] at h, fun _ => by simp [normalizeValue, hr],
          fun q2 hq hlt => absurd hr (not_le.mpr hlt)⟩
      · push_neg at hr
        have hc1 : mn ≤ max mn (min mx q) := le_max_left _ _
        have hc2 : max mn (min mx q) ≤ mx := max_le hr.le (min_le_left _ _)
        have hpos : (0 : ℚ) < mx - mn := sub_pos.mpr hr
        have hval : normalizeValue (JSVal.num q) mn mx =
            (max mn (min mx q) - mn) / (mx - mn) := by
          simp [normalizeValue, not_le.mpr hr]
        refine ⟨?_, ?_, by intro h; simp [validNumber] at h,
          fun h => absurd h (not_le.mpr hr), fun q2 hq _ => by cases hq; exact hval⟩
        · rw [hval]
          exact div_nonneg (sub_nonneg.mpr hc1) hpos.le
        · rw [hval, div_le_one hpos]
          exact sub_le_sub_right hc2 mn
  | jnull =>
      exact ⟨by norm_num [normalizeValue], by norm_num [normalizeValue],
        fun _ => rfl, fun _ => rfl, fun q hq => by cases hq⟩
  | jundef =>
      exact ⟨by norm_num [normalizeValue], by norm_num [normalizeValue],
        fun _ => rfl, fun _ => rfl, fun q hq => by cases hq⟩
  | nan =>
      exact ⟨by norm_num [normalizeValue], by norm_num [normalizeValue],
        fun _ => rfl, fun _ => rfl, fun q hq => by cases hq⟩

/-- C10 witness: normalization evaluated at a missing value, an
out-of-range value, a degenerate range and an in-range value. -/
theorem normalizeValue_total_witness :
    normalizeValue JSVal.jnull 0 10 = 1 / 2 ∧
    normalizeValue (JSVal.num 20) 0 10 ≤ 1 ∧
    normalizeValue (JSVal.num 20) 5 5 = 1 / 2 ∧
    normalizeValue (JSVal.num 7) 0 10 = (max 0 (min 10 7) - 0) / (10 - 0) :=
  ⟨(normalizeValue_total JSVal.jnull 0 10).2.2.1 rfl,
   (normalizeValue_total (JSVal.num 20) 0 10).2.1,
   (normalizeValue_total (JSVal.num 20) 5 5).2.2.2.1 (by norm_num),
   (normalizeValue_total (JSVal.num 7) 0 10).2.2.2.2 7 rfl (by norm_num)⟩

/-- C3: the claim says a second backfill attempt for an already labelled
point is a no-op. Counterexample: the stored point with timestamp 1 already
carries future_price_change = 5 and label = 1; a second backfill with a
newly computed change of −3 overwrites both fields (the source writes them
unconditionally on every match). -/
theorem backfill_overwrite_cex :
    updateStoredDataPoint [[⟨1, 10, some 5, some 1⟩]] 1 (-3) =
      (true, [[⟨1, 10, some (-3), some 0⟩]]) ∧
    some ((-3 : ℚ)) ≠ some ((5 : ℚ)) := by
  refine ⟨?_, by norm_num⟩
  norm_num [updateStoredDataPoint, updateFile]

/-- C3 (amended): a backfill attempt for an existing (symbol, timestamp)
point always succeeds and overwrites that point's future_price_change and
label with the newly computed values — last write wins; the write is not
at-most-once and a repeated backfill is not a no-op. -/
theorem backfill_last_write_wins (files : List (List DataPoint)) (timestamp : ℤ)
    (priceChange : ℚ)
    (h : ∃ f ∈ files, ∃ d ∈ f, d.timestamp = timestamp) :
    (updateStoredDataPoint files timestamp priceChange).1 = true ∧
    ∃ f2 ∈ (updateStoredDataPoint files timestamp priceChange).2, ∃ d2 ∈ f2,
      d2.timestamp = timestamp ∧ d2.futurePriceChange = some priceChange ∧
      d2.label = some (if priceChange ≥ 0 then 1 else 0) := by
  induction files with
  | nil => simp at h
  | cons f rest ih =>
      cases hf : updateFile f timestamp priceChange with
      | some f2 =>
          have hspec : ∃ d2 ∈ f2, d2.timestamp = timestamp ∧
              d2.futurePriceChange = some priceChange ∧
              d2.label = some (if priceChange ≥ 0 then 1 else 0) := by
            clear h ih
            induction f generalizing f2 with
            | nil => simp [updateFile] at hf
            | cons d tl ih2 =>
                by_cases hd : d.timestamp = timestamp
                · simp only [updateFile, if_pos hd, Option.some.injEq] at hf
                  subst hf
                  exact ⟨_, List.mem_cons_self _ _, hd, rfl, rfl⟩
                · simp only [updateFile, if_neg hd] at hf
                  cases htl : updateFile tl timestamp priceChange with
                  | some tl2 =>
                      rw [htl] at hf
                      simp only [Option.some.injEq] at hf
                      subst hf
                      obtain ⟨d2, hd2, hprops⟩ := ih2 tl2 htl
                      exact ⟨d2, List.mem_cons_of_mem _ hd2, hprops⟩
                  | none => rw [htl] at hf; cases hf
          refine ⟨?_, ?_⟩
          · simp [updateStoredDataPoint, hf]
          · obtain ⟨d2, hd2, hprops⟩ := hspec
            refine ⟨f2, ?_, d2, hd2, hprops⟩
            simp [updateStoredDataPoint, hf]
      | none =>
          have hnone : ∀ d ∈ f, d.timestamp ≠ timestamp := by
            clear h ih
            induction f with
            | nil => simp
            | cons d tl ih2 =>
                by_cases hd : d.timestamp = timestamp
                · simp [updateFile, hd] at hf
                · intro d3 hd3
                  simp only [updateFile, if_neg hd] at hf
                  cases htl : updateFile tl timestamp priceChange with
                  | some tl2 => rw [htl] at hf; cases hf
                  | none =>
                      rcases List.mem_cons.mp hd3 with h3 | h3
                      · subst h3; exact hd
                      · exact ih2 htl d3 h3
          have hrest : ∃ f2 ∈ rest, ∃ d ∈ f2, d.timestamp = timestamp := by
            obtain ⟨f3, hf3, d3, hd3, ht3⟩ := h
            rcases List.mem_cons.mp hf3 with h3 | h3
            · subst h3; exact absurd ht3 (hnone d3 hd3)
            · exact ⟨f3, h3, d3, hd3, ht3⟩
          obtain ⟨ih1, f2, hf2, hrest2⟩ := ih hrest
          refine ⟨?_, f2, ?_, hrest2⟩
          · simp [updateStoredDataPoint, hf, ih1]
          · simp only [updateStoredDataPoint, hf]
            exact List.mem_cons_of_mem _ hf2

/-- C3 witness: the overwrite semantics evaluated on a store holding one
unlabelled point with timestamp 2, backfilled with change 7. -/
theorem backfill_last_write_wins_witness :
    (updateStoredDataPoint [[⟨2, 4, none, none⟩]] 2 7).1 = true ∧
    ∃ f2 ∈ (updateStoredDataPoint [[⟨2, 4, none, none⟩]] 2 7).2, ∃ d2 ∈ f2,
      d2.timestamp = 2 ∧ d2.futurePriceChange = some 7 ∧
      d2.label = some (if (7 : ℚ) ≥ 0 then 1 else 0) :=
  backfill_last_write_wins [[⟨2, 4, none, none⟩]] 2 7
    ⟨[⟨2, 4, none, none⟩], by simp, ⟨2, 4, none, none⟩, by simp, rfl⟩

set_option maxRecDepth 8000 in
/-- C7: the claim says the model cache never holds more than 50 resident
models. Counterexample: eviction only triggers when the size before
insertion already exceeds 50, so inserting 51 distinct symbols into an
empty cache yields 51 resident models. -/
theorem model_cache_cex :
    ((List.range 51).foldl
        (fun cache n => modelCacheInsert cache (String.mk (List.replicate n 'a')) n)
        []).length = 51 := by
  decide

/-- C7 (amended): the cache holds at most 51 resident models: a prediction
either finds the symbol cached (cache unchanged) or appends it, first
evicting the oldest-inserted entry when the size before insertion exceeds
50 — so the bound reached is 51, not 50. -/
theorem model_cache_bound (cache : List (String × ℕ)) (symbol : String) (net : ℕ)
    (h : cache.length ≤ 51) :
    (modelCacheInsert cache symbol net).length ≤ 51 ∧
    (cacheHas cache symbol = true → modelCacheInsert cache symbol net = cache) ∧
    (cacheHas cache symbol = false → cache.length ≤ 50 →
      modelCacheInsert cache symbol net = cache ++ [(symbol, net)]) ∧
    (cacheHas cache symbol = false → 50 < cache.length →
      modelCacheInsert cache symbol net = cache.tail ++ [(symbol, net)]) := by
  refine ⟨?_, ?_, ?_, ?_⟩
  · by_cases hh : cacheHas cache symbol
    · simpa [modelCacheInsert, hh] using h
    · by_cases hl : cache.length > 50
      · have : cache.length - 1 + 1 ≤ 51 := by omega
        simpa [modelCacheInsert, hh, hl] using this
      · have : cache.length + 1 ≤ 51 := by omega
        simpa [modelCacheInsert, hh, hl] using this
  · intro hh; simp [modelCacheInsert, hh]
  · intro hh hl
    have : ¬ cache.length > 50 := by omega
    simp [modelCacheInsert, hh, this]
  · intro hh hl
    simp [modelCacheInsert, hh, hl]

/-- C7 witness: the cache behaviour evaluated on a two-entry cache and a
fresh symbol. -/
theorem model_cache_bound_witness :
    (modelCacheInsert [("AAA", 1), ("BBB", 2)] "CCC" 3).length ≤ 51 ∧
    (cacheHas [("AAA", 1), ("BBB", 2)] "CCC" = false →
      ([("AAA", 1), ("BBB", 2)] : List (String × ℕ)).length ≤ 50 →
      modelCacheInsert [("AAA", 1), ("BBB", 2)] "CCC" 3 =
        [("AAA", 1), ("BBB", 2)] ++ [("CCC", 3)]) :=
  ⟨(model_cache_bound [("AAA", 1), ("BBB", 2)] "CCC" 3 (by decide)).1,
   (model_cache_bound [("AAA", 1), ("BBB", 2)] "CCC" 3 (by decide)).2.2.1⟩

/-- Inserting an element no later than the head of a list prepends it. -/
theorem insertAsc_of_le (v : MVersion) (l : List MVersion)
    (h : ∀ w ∈ l.head?, v.created ≤ w.created) :
    insertAscByCreated v l = v :: l := by
  cases l with
  | nil => rfl
  | cons w tl =>
      have := h w (by simp)
      simp [insertAscByCreated, this]

/-- An ascending list is a fixed point of the ascending insertion sort. -/
theorem sortAsc_eq_self (l : List MVersion)
    (h : List.Chain' (fun a b => a.created ≤ b.created) l) :
    sortAscByCreated l = l := by
  induction l with
  | nil => rfl
  | cons a tl ih =>
      obtain ⟨hhead, htl⟩ := List.chain'_cons'.mp h
      have : sortAscByCreated (a :: tl) = insertAscByCreated a (sortAscByCreated tl) := rfl
      rw [this, ih htl, insertAsc_of_le a tl hhead]

/-- When every element carries both files, the ensemble's filterMap
degenerates to mapping out the predictions. -/
theorem filterMap_pred_eq_map (l : List MVersion)
    (h : ∀ v ∈ l, v.hasModelJson && v.hasFeaturesJson) :
    l.filterMap (fun v =>
      if v.hasModelJson && v.hasFeaturesJson then some v.pred else none) =
    l.map (fun v => v.pred) := by
  induction l with
  | nil => rfl
  | cons a tl ih =>
      have ha := h a (List.mem_cons_self _ _)
      have htl := fun v hv => h v (List.mem_cons_of_mem _ hv)
      rw [List.filterMap_cons, if_pos ha, ih htl, List.map_cons]

/-- C4: the claim says ensemble prediction selects the 5 most recent
versions and weights the most recent highest. Counterexample: with two
valid versions listed oldest-first (creation times 1 then 2, predictions 0
then 10), the source's `slice(0, 5)`-without-sort weighting yields 10/3 —
the OLDEST version got the larger weight — while the specified
recency-weighted average is 20/3. -/
theorem ensemble_order_cex :
    ensemblePrediction
        [⟨"va", 1, true, true, true, 0⟩, ⟨"vb", 2, true, true, true, 10⟩] =
      some (10 / 3) ∧
    ensemblePredictionSpec
        [⟨"va", 1, true, true, true, 0⟩, ⟨"vb", 2, true, true, true, 10⟩] =
      some (20 / 3) ∧
    (10 / 3 : ℚ) ≠ 20 / 3 := by
  have hr : List.range 2 = [0, 1] := by decide
  refine ⟨?_, ?_, by norm_num⟩
  · have hstep : ensemblePrediction
        [⟨"va", 1, true, true, true, 0⟩, ⟨"vb", 2, true, true, true, 10⟩] =
        some (weightedEnsemble [0, 10]) := rfl
    rw [hstep]
    norm_num [weightedEnsemble, hr]
  · have hstep : ensemblePredictionSpec
        [⟨"va", 1, true, true, true, 0⟩, ⟨"vb", 2, true, true, true, 10⟩] =
        some (weightedEnsemble [10, 0]) := rfl
    rw [hstep]
    norm_num [weightedEnsemble, hr]

/-- C4 (amended): the source takes the FIRST up-to-5 eligible versions in
directory-listing order without sorting and gives the first-listed the
largest weight; since the version directories are named by creation
timestamp, the listing is ascending by creation time, so the five OLDEST
versions are selected and the oldest receives the largest weight N. For
every ascending listing of valid versions, the source's result equals this
oldest-weighted combination. -/
theorem ensemble_oldest_weighted (listing : List MVersion)
    (hsorted : List.Chain' (fun a b => a.created ≤ b.created) listing)
    (hvalid : ∀ v ∈ listing, validVersion v = true) :
    ensemblePrediction listing = ensemblePredictionSpecOldest listing := by
  have hf1 : listing.filter (fun v => v.isVersionDir && v.hasModelJson) = listing := by
    rw [List.filter_eq_self]
    intro v hv
    have hvv := hvalid v hv
    simp only [validVersion, Bool.and_eq_true] at hvv
    simp only [Bool.and_eq_true]
    exact hvv.1
  have hf2 : listing.filter validVersion = listing := by
    rw [List.filter_eq_self]
    exact hvalid
  have hflags : ∀ v ∈ listing.take 5, (v.hasModelJson && v.hasFeaturesJson) = true := by
    intro v hv
    have hvv := hvalid v (List.take_subset 5 listing hv)
    simp only [validVersion, Bool.and_eq_true] at hvv
    simp only [Bool.and_eq_true]
    exact ⟨hvv.1.2, hvv.2⟩
  simp only [ensemblePrediction, ensemblePredictionSpecOldest]
  rw [hf1, hf2, sortAsc_eq_self listing hsorted, filterMap_pred_eq_map _ hflags]
  by_cases he : (listing.take 5).isEmpty = true
  · rw [if_pos he, if_pos he]
  · have hmap : ¬ ((listing.take 5).map (fun v => v.pred)).isEmpty = true := by
      simpa using he
    rw [if_neg he, if_neg hmap, if_neg he]

/-- C4 witness: the oldest-weighted combination evaluated on an ascending
two-version listing. -/
theorem ensemble_oldest_weighted_witness :
    ensemblePrediction
        [⟨"va", 1, true, true, true, 3⟩, ⟨"vb", 2, true, true, true, 9⟩] =
      ensemblePredictionSpecOldest
        [⟨"va", 1, true, true, true, 3⟩, ⟨"vb", 2, true, true, true, 9⟩] :=
  ensemble_oldest_weighted _
    (by norm_num [List.chain'_cons, List.chain'_singleton]) (by decide)

/-- C5: the claim says histogram[i] = macd[i] − signal[i] at every index.
Counterexample: with periods (fast 1, slow 2, signal 2) on prices [1, 2, 3]
the zero-filled warm-up region gives histogram[1] = 0 while macd[1] −
signal[1] = 1/2 − 1/4 = 1/4. -/
theorem macd_histogram_cex :
    calculateMACD (JSInput.arr [JSVal.num 1, JSVal.num 2, JSVal.num 3]) 1 2 2 =
      Except.ok ⟨[0, 1 / 2, 1 / 2], [0, 1 / 4, 5 / 12], [0, 0, 1 / 12]⟩ ∧
    (⟨[0, 1 / 2, 1 / 2], [0, 1 / 4, 5 / 12], [0, 0, 1 / 12]⟩ : MACDResult).histogram.getD 1 0 ≠
      (⟨[0, 1 / 2, 1 / 2], [0, 1 / 4, 5 / 12], [0, 0, 1 / 12]⟩ : MACDResult).macd.getD 1 0 -
      (⟨[0, 1 / 2, 1 / 2], [0, 1 / 4, 5 / 12], [0, 0, 1 / 12]⟩ : MACDResult).signal.getD 1 0 := by
  constructor
  · have h1 : calculateMACD (JSInput.arr [JSVal.num 1, JSVal.num 2, JSVal.num 3]) 1 2 2 =
        Except.ok (calculateMACDnums [1, 2, 3] 1 2 2) := rfl
    rw [h1]
    norm_num [calculateMACDnums, calculateEMAnums, emaScan, padArray, List.range_succ]
  · norm_num [List.getD]

/-- C5 (amended): for every ok result of calculateMACD and every index i,
the histogram equals macd − signal at indices i ≥ slowPeriod + signalPeriod
− 2, and is the zero fill below that warm-up cutoff (where macd − signal is
generally nonzero). -/
theorem macd_histogram_eq (input : JSInput) (fastPeriod slowPeriod signalPeriod : ℕ)
    (r : MACDResult)
    (h : calculateMACD input fastPeriod slowPeriod signalPeriod = Except.ok r) (i : ℕ) :
    (slowPeriod + signalPeriod - 2 ≤ i →
      r.histogram.getD i 0 = r.macd.getD i 0 - r.signal.getD i 0) ∧
    (i < slowPeriod + signalPeriod - 2 → r.histogram.getD i 0 = 0) := by
  unfold calculateMACD at h
  split at h
  · exact absurd h (by simp)
  · split at h
    · exact absurd h (by simp)
    · split at h
      · exact absurd h (by simp)
      · next hf hs hg =>
          split at h
          · exact absurd h (by simp)
          · next ps heq =>
              simp only [Except.ok.injEq] at h
              subst h
              simp only
              rw [getD_replicate]
              constructor
              · intro _
                split <;> norm_num
              · intro _
                split <;> norm_num
          · next ps heq =>
              simp only [Except.ok.injEq] at h
              subst h
              constructor
              · intro hcut
                by_cases hi : i < ps.length
                · simp only [calculateMACDnums]
                  rw [getD_map_range _ _ _ (by simpa using hi),
                    getD_map_range _ _ _ (by simpa using hi)]
                  rw [if_neg (by omega)]
                · have hlen : ps.length ≤ i := by omega
                  simp only [calculateMACDnums]
                  rw [getD_past_end _ _ _ (by simpa using hlen),
                    getD_past_end _ _ _ (by simpa using hlen),
                    getD_past_end _ _ _ ?hsig]
                  · norm_num
                  case hsig =>
                    rw [calculateEMAnums_length _ _ (by omega)]
                    simpa using hlen
              · intro hcut
                by_cases hi : i < ps.length
                · simp only [calculateMACDnums]
                  rw [getD_map_range _ _ _ (by simpa using hi), if_pos hcut]
                · have hlen : ps.length ≤ i := by omega
                  simp only [calculateMACDnums]
                  rw [getD_past_end _ _ _ (by simpa using hlen)]
          · exact absurd h (by simp)

/-- C5 witness: the amended relation evaluated at index 2 of the MACD of
[1, 2, 3] with periods (1, 2, 2), which is past the warm-up cutoff. -/
theorem macd_histogram_eq_witness :
    (calculateMACDnums [1, 2, 3] 1 2 2).histogram.getD 2 0 =
      (calculateMACDnums [1, 2, 3] 1 2 2).macd.getD 2 0 -
      (calculateMACDnums [1, 2, 3] 1 2 2).signal.getD 2 0 :=
  (macd_histogram_eq (JSInput.arr [JSVal.num 1, JSVal.num 2, JSVal.num 3]) 1 2 2
    (calculateMACDnums [1, 2, 3] 1 2 2) rfl 2).1 (by norm_num)

/-- C6: the claim says any input containing a non-numeric element signals a
validation error, and the neutral fallback is returned only for well-formed
inputs. Counterexample: `calculateRSI([null], 14)` — a one-element array
containing null — returns the padded neutral fallback [50] instead of
signalling an error, because the length check precedes the per-element
check. -/
theorem indicator_validation_cex :
    calculateRSI (JSInput.arr [JSVal.jnull]) 14 = Except.ok [50] ∧
    validNumber JSVal.jnull = false := by
  refine ⟨?_, rfl⟩
  norm_num [calculateRSI, validatePriceData, padArray]

/-- C6 (amended): non-array input always signals a validation error; an
array containing a non-numeric element signals a validation error only when
it meets the function's minimum length; arrays shorter than the minimum
length return the neutral fallback regardless of element validity (EMA pads
with the raw first element, RSI with 50, MACD with zeros, Bollinger with
the first element ± 10 %, ATR returns 0). -/
theorem indicator_validation_amended :
    (∀ period : ℕ, 0 < period → isErr (calculateEMA JSInput.notArray period) = true) ∧
    (∀ (ps : List JSVal) (period : ℕ), 0 < period → period ≤ ps.length →
      ps.any (fun v => !validNumber v) = true →
      isErr (calculateEMA (JSInput.arr ps) period) = true) ∧
    (∀ (ps : List JSVal) (period : ℕ), 0 < period → ps.length < period →
      calculateEMA (JSInput.arr ps) period =
        Except.ok (List.replicate ps.length (ps.headD (JSVal.num 0)))) ∧
    (∀ period : ℕ, 0 < period → isErr (calculateRSI JSInput.notArray period) = true) ∧
    (∀ (ps : List JSVal) (period : ℕ), 0 < period → period + 1 ≤ ps.length →
      ps.any (fun v => !validNumber v) = true →
      isErr (calculateRSI (JSInput.arr ps) period) = true) ∧
    (∀ (ps : List JSVal) (period : ℕ), 0 < period → ps.length < period + 1 →
      calculateRSI (JSInput.arr ps) period = Except.ok (List.replicate ps.length 50)) ∧
    (∀ fp sp gp : ℕ, 0 < fp → 0 < sp → 0 < gp →
      isErr (calculateMACD JSInput.notArray fp sp gp) = true) ∧
    (∀ (ps : List JSVal) (fp sp gp : ℕ), 0 < fp → 0 < sp → 0 < gp →
      max fp sp ≤ ps.length → ps.any (fun v => !validNumber v) = true →
      isErr (calculateMACD (JSInput.arr ps) fp sp gp) = true) ∧
    (∀ (ps : List JSVal) (fp sp gp : ℕ), 0 < fp → 0 < sp → 0 < gp →
      ps.length < max fp sp →
      calculateMACD (JSInput.arr ps) fp sp gp =
        Except.ok ⟨List.replicate ps.length 0, List.replicate ps.length 0,
          List.replicate ps.length 0⟩) ∧
    (∀ (sq : ℚ → ℚ) (period : ℕ) (m : ℚ), 0 < period → 0 < m →
      isErr (calculateBollingerBands sq JSInput.notArray period m) = true) ∧
    (∀ (sq : ℚ → ℚ) (ps : List JSVal) (period : ℕ) (m : ℚ), 0 < period → 0 < m →
      period ≤ ps.length → ps.any (fun v => !validNumber v) = true →
      isErr (calculateBollingerBands sq (JSInput.arr ps) period m) = true) ∧
    (∀ (sq : ℚ → ℚ) (ps : List JSVal) (period : ℕ) (m : ℚ), 0 < period → 0 < m →
      ps.length < period →
      calculateBollingerBands sq (JSInput.arr ps) period m =
        Except.ok ⟨List.replicate ps.length (jsMul (ps.headD (JSVal.num 0)) (11 / 10)),
          List.replicate ps.length (ps.headD (JSVal.num 0)),
          List.replicate ps.length (jsMul (ps.headD (JSVal.num 0)) (9 / 10))⟩) ∧
    (∀ period : ℕ, 0 < period → isErr (calculateATR KlinesInput.notArray period) = true) ∧
    (∀ (ks : List KlineVal) (period : ℕ), 0 < period → period + 1 ≤ ks.length →
      ks.any (fun k => !validKline k) = true →
      isErr (calculateATR (KlinesInput.arr ks) period) = true) ∧
    (∀ (ks : List KlineVal) (period : ℕ), 0 < period → ks.length < period + 1 →
      calculateATR (KlinesInput.arr ks) period = Except.ok 0) := by
  refine ⟨?_, ?_, ?_, ?_, ?_, ?_, ?_, ?_, ?_, ?_, ?_, ?_, ?_, ?_, ?_⟩
  · intro period hp
    simp [calculateEMA, validatePriceData, isErr, Nat.pos_iff_ne_zero.mp hp]
  · intro ps period hp hlen hbad
    simp [calculateEMA, validatePriceData, isErr, Nat.pos_iff_ne_zero.mp hp,
      Nat.not_lt.mpr hlen, hbad]
  · intro ps period hp hlen
    simp [calculateEMA, validatePriceData, isErr, Nat.pos_iff_ne_zero.mp hp,
      hlen, padArray_nil]
  · intro period hp
    simp [calculateRSI, validatePriceData, isErr, Nat.pos_iff_ne_zero.mp hp]
  · intro ps period hp hlen hbad
    simp [calculateRSI, validatePriceData, isErr, Nat.pos_iff_ne_zero.mp hp,
      Nat.not_lt.mpr hlen, hbad]
  · intro ps period hp hlen
    simp [calculateRSI, validatePriceData, isErr, Nat.pos_iff_ne_zero.mp hp,
      hlen, padArray_nil]
  · intro fp sp gp hf hs hg
    simp [calculateMACD, validatePriceData, isErr, Nat.pos_iff_ne_zero.mp hf,
      Nat.pos_iff_ne_zero.mp hs, Nat.pos_iff_ne_zero.mp hg]
  · intro ps fp sp gp hf hs hg hlen hbad
    simp [calculateMACD, validatePriceData, isErr, Nat.pos_iff_ne_zero.mp hf,
      Nat.pos_iff_ne_zero.mp hs, Nat.pos_iff_ne_zero.mp hg, Nat.not_lt.mpr hlen, hbad]
  · intro ps fp sp gp hf hs hg hlen
    simp [calculateMACD, validatePriceData, isErr, Nat.pos_iff_ne_zero.mp hf,
      Nat.pos_iff_ne_zero.mp hs, Nat.pos_iff_ne_zero.mp hg, hlen]
  · intro sq period m hp hm
    simp [calculateBollingerBands, validatePriceData, isErr,
      Nat.pos_iff_ne_zero.mp hp, not_le.mpr hm]
  · intro sq ps period m hp hm hlen hbad
    simp [calculateBollingerBands, validatePriceData, isErr,
      Nat.pos_iff_ne_zero.mp hp, not_le.mpr hm, Nat.not_lt.mpr hlen, hbad]
  · intro sq ps period m hp hm hlen
    simp [calculateBollingerBands, validatePriceData, isErr,
      Nat.pos_iff_ne_zero.mp hp, not_le.mpr hm, hlen]
  · intro period hp
    simp [calculateATR, isErr, Nat.pos_iff_ne_zero.mp hp]
  · intro ks period hp hlen hbad
    simp [calculateATR, isErr, Nat.pos_iff_ne_zero.mp hp, Nat.not_lt.mpr hlen, hbad]
  · intro ks period hp hlen
    simp [calculateATR, isErr, Nat.pos_iff_ne_zero.mp hp, hlen]

/-- C6 witness: the amended validation contract evaluated at a non-array
EMA input, a long-enough RSI input containing NaN, a too-short MACD input
and a too-short ATR input. -/
theorem indicator_validation_amended_witness :
    isErr (calculateEMA JSInput.notArray 3) = true ∧
    isErr (calculateRSI (JSInput.arr [JSVal.num 1, JSVal.nan]) 1) = true ∧
    calculateMACD (JSInput.arr [JSVal.num 4]) 2 3 2 =
      Except.ok ⟨List.replicate 1 0, List.replicate 1 0, List.replicate 1 0⟩ ∧
    calculateATR (KlinesInput.arr []) 14 = Except.ok 0 :=
  ⟨indicator_validation_amended.1 3 (by norm_num),
   indicator_validation_amended.2.2.2.2.1 [JSVal.num 1, JSVal.nan] 1 (by norm_num)
     (by norm_num) (by decide),
   indicator_validation_amended.2.2.2.2.2.2.2.2.1 [JSVal.num 4] 2 3 2 (by norm_num)
     (by norm_num) (by norm_num) (by norm_num),
   indicator_validation_amended.2.2.2.2.2.2.2.2.2.2.2.2.2.2 [] 14 (by norm_num)
     (by norm_num)⟩

/-- Pointwise ≤ lists compare pointwise under getD with default 0. -/
theorem getD_le_of_forall2 {xs ys : List ℚ} (h : List.Forall₂ (· ≤ ·) xs ys) (i : ℕ) :
    xs.getD i 0 ≤ ys.getD i 0 := by
  induction h generalizing i with
  | nil => simp [List.getD]
  | cons hab htail ih =>
      cases i with
      | zero => simpa using hab
      | succ j => simpa using ih j

/-- Replicates of comparable values are pointwise comparable. -/
theorem forall2_le_replicate (k : ℕ) {a b : ℚ} (h : a ≤ b) :
    List.Forall₂ (· ≤ ·) (List.replicate k a) (List.replicate k b) := by
  induction k with
  | zero => exact List.Forall₂.nil
  | succ m ih => exact List.Forall₂.cons h ih

/-- Two maps of one list are pointwise comparable when the functions are. -/
theorem forall2_le_map {α : Type} (l : List α) (f g : α → ℚ)
    (h : ∀ b ∈ l, f b ≤ g b) :
    List.Forall₂ (· ≤ ·) (l.map f) (l.map g) := by
  induction l with
  | nil => exact List.Forall₂.nil
  | cons a tl ih =>
      exact List.Forall₂.cons (h a (List.mem_cons_self _ _))
        (ih fun b hb => h b (List.mem_cons_of_mem _ hb))

/-- Concatenation preserves pointwise ≤. -/
theorem forall2_le_append {xs ys zs ws : List ℚ}
    (h1 : List.Forall₂ (· ≤ ·) xs ys) (h2 : List.Forall₂ (· ≤ ·) zs ws) :
    List.Forall₂ (· ≤ ·) (xs ++ zs) (ys ++ ws) := by
  induction h1 with
  | nil => exact h2
  | cons hab htail ih => exact List.Forall₂.cons hab ih

/-- Padded maps of one band list compare pointwise under getD. -/
theorem padded_maps_le (bands : List (ℚ × ℚ × ℚ)) (n : ℕ)
    (f g : ℚ × ℚ × ℚ → ℚ) (vf vg : ℚ)
    (hfg : ∀ b ∈ bands, f b ≤ g b) (hv : vf ≤ vg) (i : ℕ) :
    (padArray (bands.map f) n vf true).getD i 0 ≤
      (padArray (bands.map g) n vg true).getD i 0 := by
  rw [padArray_eq_append, padArray_eq_append, List.length_map, List.length_map]
  exact getD_le_of_forall2
    (forall2_le_append (forall2_le_replicate _ hv) (forall2_le_map bands f g hfg)) i

/-- Each Bollinger band triple is ordered lower ≤ middle ≤ upper, given a
positive multiplier and a square root nonnegative on nonnegative input. -/
theorem bollingerBandAt_ordered (sqrtFn : ℚ → ℚ)
    (hs : ∀ x, 0 ≤ x → 0 ≤ sqrtFn x) (prices : List ℚ) (period : ℕ)
    (multiplier : ℚ) (hm : 0 < multiplier) (i : ℕ) :
    (bollingerBandAt sqrtFn prices period multiplier i).2.2 ≤
      (bollingerBandAt sqrtFn prices period multiplier i).1 ∧
    (bollingerBandAt sqrtFn prices period multiplier i).1 ≤
      (bollingerBandAt sqrtFn prices period multiplier i).2.1 := by
  simp only [bollingerBandAt]
  have hsq : (0 : ℚ) ≤
      (((prices.drop (i + 1 - period)).take period).map
        (fun p => (p - ((prices.drop (i + 1 - period)).take period).sum / period) ^ 2)).sum /
        period := by
    apply div_nonneg
    · apply List.sum_nonneg
      intro x hx
      obtain ⟨p, hp, rfl⟩ := List.mem_map.mp hx
      exact sq_nonneg _
    · positivity
  have hsd := hs _ hsq
  constructor
  · have : 0 ≤ multiplier * sqrtFn _ := mul_nonneg hm.le hsd
    linarith
  · have : 0 ≤ multiplier * sqrtFn _ := mul_nonneg hm.le hsd
    linarith

/-- C8: the claim says upper[i] ≥ middle[i] ≥ lower[i] for every Bollinger
computation including the padded prefix. Counterexample: on the short input
[−1] the ±10 % fallback inverts for a negative first price: upper = −1.1 <
middle = −1 < lower = −0.9. (The fallback branch never evaluates the square
root, so the constant zero function stands in for `Math.sqrt`.) -/
theorem bollinger_order_cex :
    calculateBollingerBands (fun _ => 0) (JSInput.arr [JSVal.num (-1)]) 20 2 =
      Except.ok ⟨[JSVal.num (-11 / 10)], [JSVal.num (-1)], [JSVal.num (-9 / 10)]⟩ ∧
    (-11 / 10 : ℚ) < -1 ∧ (-1 : ℚ) < -9 / 10 := by
  refine ⟨?_, by norm_num, by norm_num⟩
  norm_num [calculateBollingerBands, validatePriceData, jsMul]

set_option maxHeartbeats 1600000 in
/-- C8 (amended): upper[i] ≥ middle[i] ≥ lower[i] holds at every index of
every ok Bollinger result — including the padded prefix — provided the
first price is nonnegative (the counterexample shows it fails for a
negative first price); entries are compared where they are numbers, and
`Math.sqrt` is assumed nonnegative on nonnegative input. -/
theorem bollinger_ordered (sqrtFn : ℚ → ℚ) (hs : ∀ x, 0 ≤ x → 0 ≤ sqrtFn x)
    (ps : List JSVal) (period : ℕ) (multiplier : ℚ) (r : BBResult)
    (h : calculateBollingerBands sqrtFn (JSInput.arr ps) period multiplier =
      Except.ok r)
    (h0 : ∀ q, ps.headD (JSVal.num 0) = JSVal.num q → 0 ≤ q) (i : ℕ) :
    (∀ xl xm, r.lower.getD i (JSVal.num 0) = JSVal.num xl →
      r.middle.getD i (JSVal.num 0) = JSVal.num xm → xl ≤ xm) ∧
    (∀ xm xu, r.middle.getD i (JSVal.num 0) = JSVal.num xm →
      r.upper.getD i (JSVal.num 0) = JSVal.num xu → xm ≤ xu) ∧
    (∀ xl xu, r.lower.getD i (JSVal.num 0) = JSVal.num xl →
      r.upper.getD i (JSVal.num 0) = JSVal.num xu → xl ≤ xu) := by
  unfold calculateBollingerBands at h
  split at h
  · exact absurd h (by simp)
  · split at h
    · exact absurd h (by simp)
    · next hp hm =>
        have hmpos : 0 < multiplier := lt_of_not_le hm
        split at h
        · exact absurd h (by simp)
        · next psv hpseq heq =>
            cases hpseq
            simp only [Except.ok.injEq] at h
            subst h
            simp only [getD_replicate]
            by_cases hi : i < ps.length
            · rw [if_pos hi, if_pos hi, if_pos hi]
              cases hd : ps.headD (JSVal.num 0) with
              | num q =>
                  have hq := h0 q hd
                  simp only [jsMul]
                  refine ⟨?_, ?_, ?_⟩ <;> (intro x y hx hy; cases hx; cases hy; linarith)
              | jnull =>
                  simp only [jsMul]
                  refine ⟨?_, ?_, ?_⟩ <;> (intro x y hx hy)
                  · cases hy
                  · cases hx
                  · cases hx; cases hy; norm_num
              | jundef =>
                  simp only [jsMul]
                  refine ⟨?_, ?_, ?_⟩ <;> (intro x y hx hy) <;> cases hx
              | nan =>
                  simp only [jsMul]
                  refine ⟨?_, ?_, ?_⟩ <;> (intro x y hx hy) <;> cases hx
            · rw [if_neg hi, if_neg hi, if_neg hi]
              refine ⟨?_, ?_, ?_⟩ <;> (intro x y hx hy; cases hx; cases hy; norm_num)
        · next psv hpseq heq =>
            cases hpseq
            simp only [Except.ok.injEq] at h
            subst h
            -- the main branch: ps is nonempty with a valid numeric head,
            -- so the pad default is nonnegative
            have hvalid : ¬ (ps.length < period) ∧
                ¬ (ps.any (fun p => !validNumber p) = true) := by
              simp only [validatePriceData] at heq
              split at heq
              · exact absurd heq (by simp)
              · split at heq
                · exact absurd heq (by simp)
                · next h1 h2 => exact ⟨h1, h2⟩
            have hne : ps ≠ [] := by
              intro hnil
              rw [hnil] at hvalid
              have := hvalid.1
              simp at this
              omega
            have hdnn : 0 ≤ (ps.map jsNumVal).headD 0 := by
              cases hps : ps with
              | nil => exact absurd hps hne
              | cons p0 tl =>
                  have hv0 : validNumber p0 = true := by
                    have := hvalid.2
                    rw [hps] at this
                    simp only [List.any_cons, Bool.or_eq_true, not_or] at this
                    cases hvv : validNumber p0
                    · exact absurd (by simp [hvv]) this.1
                    · rfl
                  cases p0 with
                  | num q =>
                      have := h0 q (by rw [hps]; rfl)
                      simpa [jsNumVal] using this
                  | jnull => simp [validNumber] at hv0
                  | jundef => simp [validNumber] at hv0
                  | nan => simp [validNumber] at hv0
            have hband : ∀ b ∈ bollingerBands sqrtFn (ps.map jsNumVal) period multiplier,
                b.2.2 ≤ b.1 ∧ b.1 ≤ b.2.1 := by
              intro b hb
              obtain ⟨j, hj, rfl⟩ := List.mem_map.mp hb
              exact bollingerBandAt_ordered sqrtFn hs _ period multiplier hmpos j
            have hlowmid : (ps.map jsNumVal).headD 0 * (9 / 10) ≤
                (ps.map jsNumVal).headD 0 := by linarith
            have hmidup : (ps.map jsNumVal).headD 0 ≤
                (ps.map jsNumVal).headD 0 * (11 / 10) := by linarith
            simp only [getD_map_num]
            refine ⟨?_, ?_, ?_⟩ <;> (intro x y hx hy; cases hx; cases hy)
            · exact padded_maps_le _ _ _ _ _ _
                (fun b hb => (hband b hb).1) hlowmid i
            · exact padded_maps_le _ _ _ _ _ _
                (fun b hb => (hband b hb).2) hmidup i
            · exact padded_maps_le _ _ _ _ _ _
                (fun b hb => le_trans (hband b hb).1 (hband b hb).2)
                (le_trans hlowmid hmidup) i
        · exact absurd h (by simp)

/-- C8 witness: the ordering evaluated at index 0 of the Bollinger bands of
[1, 2] with period 1 and multiplier 2 (where each band triple collapses to
the price itself). -/
theorem bollinger_ordered_witness :
    (1 : ℚ) ≤ 1 :=
  (bollinger_ordered id (fun x hx => hx) [JSVal.num 1, JSVal.num 2] 1 2
    ⟨[JSVal.num 1, JSVal.num 2], [JSVal.num 1, JSVal.num 2], [JSVal.num 1, JSVal.num 2]⟩
    (by norm_num [calculateBollingerBands, validatePriceData, bollingerBands,
      bollingerBandAt, padArray, jsNumVal, validNumber, List.range_succ])
    (by intro q hq; cases hq; norm_num) 0).1 1 1 rfl rfl

end EmaTracker
